import Mathlib

/-!
Shallow embedding of the zap log-emission core (package zap / zapcore):
the Core interface and its no-op, single-destination (ioCore) and fan-out
(multiCore) variants, the pooled CheckedEntry accumulator, the sampling
decorator with its lock-free counter table, the sink registry and the
built-in file sink factory. Strings handled at the byte level are
modelled as lists of byte values; Go's uint64 / int64 / uint32 arithmetic
is Nat / Int with explicit reduction modulo 2^64 / 2^32 where the source
can wrap; Go runtime panics (modulo by zero, out-of-range indexing) are
modelled as the none case of an Option-valued result.
-/

namespace Zap

/-- Modelled from the spec: the ordered, small integer-backed severity
levels Debug < Info < Warn < Error < DPanic < Panic < Fatal (the zapcore
level constants, whose defining file is not part of the sources given;
src/zapcore/core.go and src/zapcore/sampler.go consume them). -/
inductive Level where
  | debug
  | info
  | warn
  | error
  | dpanic
  | panic
  | fatal
deriving DecidableEq, Repr

/-- The integer backing each level (Debug = -1 through Fatal = 5), giving
the order used by comparisons such as ent.Level > ErrorLevel. -/
def Level.toInt : Level → Int
  | .debug => -1
  | .info => 0
  | .warn => 1
  | .error => 2
  | .dpanic => 3
  | .panic => 4
  | .fatal => 5

/-- The row of a level inside the counters table: lvl - _minLevel
(src/zapcore/sampler.go, counters.get). -/
def Level.index (l : Level) : Nat := (l.toInt + 1).toNat

/-- Fields are opaque key-tagged payloads (an external collaborator per
the spec); only their identity matters to the operations modelled here. -/
abbrev Field := Nat

/-- An Entry (src/unnamed/part_002): level, timestamp (UnixNano, int64)
and message bytes. The logger name, caller and stack fields are carried
by the source Entry but play no part in the modelled operations and are
omitted. -/
structure Entry where
  level : Level
  time : Int
  message : List Nat
deriving DecidableEq, Repr

/-- The accumulator as Core.Check sees it: nil or the list of identities
of the cores collected so far. -/
abbrev CheckAcc := Option (List Nat)

/-- Behavioural model of the zapcore.Core interface
(src/zapcore/core.go): the level test, the admission check as a
transformation of the accumulator, Write returning its multierr error
list ([] = nil), and Sync returning its error list ([] = nil). -/
structure Core where
  Enabled : Level → Bool
  Check : Entry → CheckAcc → CheckAcc
  Write : Entry → List Field → List String
  Sync : List String

/-- The no-op Core (src/zapcore/core.go, nopCore): never enabled, Check
returns its accumulator argument unchanged, Write and Sync return nil. -/
def NewNopCore : Core where
  Enabled := fun _ => false
  Check := fun _ ce => ce
  Write := fun _ _ => []
  Sync := []

/-- multierr.Append with errors modelled as lists of messages: nil is []
and appending concatenates. -/
def multierrAppend (a b : List String) : List String := a ++ b

/-- The fan-out core over an ordered member list (src/unnamed/part_001,
multiCore): Enabled is the OR over the members, Check folds every
member's Check over the accumulator, and Write / Sync visit every member
in order, aggregating all errors with multierr. -/
def multiCore (mc : List Core) : Core where
  Enabled := fun lvl => mc.any (fun c => c.Enabled lvl)
  Check := fun ent ce => mc.foldl (fun acc c => c.Check ent acc) ce
  Write := fun ent fields =>
    mc.foldl (fun err c => multierrAppend err (c.Write ent fields)) []
  Sync := mc.foldl (fun err c => multierrAppend err c.Sync) []

/-- NewTee (src/unnamed/part_001, lines 43-52): no cores gives the no-op
core, exactly one core is returned unchanged, two or more give the
fan-out core over the given sequence. -/
def NewTee (cores : List Core) : Core :=
  match cores with
  | [] => NewNopCore
  | [c] => c
  | _ => multiCore cores

/-- A single-destination core (src/zapcore/core.go, ioCore), with its
encoder and destination modelled by their outcome functions: the encoder
yields buffer bytes or an error, the destination write yields an optional
error, and the destination sync yields an optional error. -/
structure IoCore where
  enabled : Level → Bool
  encode : Entry → List Field → Except String (List Nat)
  outWrite : List Nat → Option String
  outSync : Option String

/-- The observable effects of one ioCore.Write call: the bytes handed to
the destination (none when no write happened), whether the buffer was
released, whether the destination was synced, and the returned error. -/
structure IoWriteEffect where
  wroteBytes : Option (List Nat)
  bufFreed : Bool
  synced : Bool
  result : Option String
deriving DecidableEq, Repr

/-- ioCore.Write (src/zapcore/core.go, lines 102-129): encode the entry
and fields, aborting with the encoding error when encoding fails; write
the bytes to the destination; free the buffer regardless of the write's
outcome; surface a write error without syncing; on success sync the
destination, ignoring the sync error, exactly when the entry's level is
strictly above Error. -/
def IoCore.Write (c : IoCore) (ent : Entry) (fields : List Field) : IoWriteEffect :=
  match c.encode ent fields with
  | .error e => { wroteBytes := none, bufFreed := false, synced := false, result := some e }
  | .ok buf =>
    match c.outWrite buf with
    | some e => { wroteBytes := some buf, bufFreed := true, synced := false, result := some e }
    | none =>
      if ent.level.toInt > Level.error.toInt then
        { wroteBytes := some buf, bufFreed := true, synced := true, result := none }
      else
        { wroteBytes := some buf, bufFreed := true, synced := false, result := none }

/-- CheckWriteAction (src/unnamed/part_002): what to do after Write. -/
inductive CheckWriteAction where
  | WriteThenNoop
  | WriteThenPanic
  | WriteThenFatal
deriving DecidableEq, Repr

/-- One collected core of a CheckedEntry, modelled by the multierr error
list its Write returns for the stamped entry and fields ([] = nil). -/
abbrev CoreOutcome := List String

/-- CheckedEntry (src/unnamed/part_002): the stamped entry, whether an
error output is configured (ErrorOutput != nil), the dirty reuse flag,
the terminal action, and the collected cores. -/
structure CheckedEntry where
  entry : Entry
  hasErrorOutput : Bool
  dirty : Bool
  should : CheckWriteAction
  cores : List CoreOutcome
deriving DecidableEq, Repr

/-- The terminal action a CheckedEntry.Write call actually performed. -/
inductive Terminal where
  | noop
  | panicked (msg : List Nat)
  | exited
deriving DecidableEq, Repr

/-- The observable effects of one CheckedEntry.Write call: how many
collected cores' Write methods were invoked, whether a reuse diagnostic
was reported to the error output, whether an aggregate write error was
reported there, whether the entry was returned to the pool, and the
terminal action taken. -/
structure CeWriteEffect where
  coreWritesAttempted : Nat
  reuseReported : Bool
  writeErrorReported : Bool
  pooled : Bool
  terminal : Terminal
deriving DecidableEq, Repr

/-- CheckedEntry.Write (src/unnamed/part_002, lines 582-642): a nil
receiver returns immediately; a dirty entry reports a reuse diagnostic to
the error output when one is configured and returns without writing,
pooling, or any terminal action; otherwise every collected core's Write
is invoked in order with all errors aggregated by multierr, a non-nil
aggregate is reported to the configured error output, the entry is
returned to the pool, and finally the entry panics with the message or
exits the process according to its CheckWriteAction. -/
def CheckedEntry.Write (ce : Option CheckedEntry) : CeWriteEffect :=
  match ce with
  | none =>
    { coreWritesAttempted := 0, reuseReported := false, writeErrorReported := false
      pooled := false, terminal := .noop }
  | some c =>
    if c.dirty then
      { coreWritesAttempted := 0, reuseReported := c.hasErrorOutput
        writeErrorReported := false, pooled := false, terminal := .noop }
    else
      let err := c.cores.foldl (fun e w => multierrAppend e w) []
      { coreWritesAttempted := c.cores.length
        reuseReported := false
        writeErrorReported := c.hasErrorOutput && !err.isEmpty
        pooled := true
        terminal :=
          match c.should with
          | .WriteThenNoop => .noop
          | .WriteThenPanic => .panicked c.entry.message
          | .WriteThenFatal => .exited }

/-- A CheckedEntry freshly drawn from the pool and stamped with an entry:
reset left it clean — no error output, not dirty, noop action, no cores
(src/unnamed/part_002, getCheckedEntry / reset / AddCore). -/
def getCheckedEntry (ent : Entry) : CheckedEntry :=
  { entry := ent, hasErrorOutput := false, dirty := false
    should := .WriteThenNoop, cores := [] }

/-- CheckedEntry.Should (src/unnamed/part_002, lines 666-673): on a nil
receiver a fresh entry is drawn from the pool and stamped; then the
CheckWriteAction is set. -/
def CheckedEntry.Should (ce : Option CheckedEntry) (ent : Entry)
    (should : CheckWriteAction) : Option CheckedEntry :=
  match ce with
  | none => some { getCheckedEntry ent with should := should }
  | some c => some { c with should := should }

/-- Logger.check (src/unnamed/part_002, lines 306-375), with the core's
Check call abstracted by its result: none when the core declined, or the
collected cores of the freshly stamped CheckedEntry it built (AddCore on
a nil receiver draws a reset entry from the pool). After the core check,
the terminal action is installed via Should for PanicLevel, FatalLevel
and — in development mode — DPanicLevel; the logger's error output is
threaded onto the entry only when the core check agreed to write. -/
def loggerCheck (development : Bool) (hasErrOut : Bool) (lvl : Level)
    (time : Int) (msg : List Nat) (coreCheck : Option (List CoreOutcome)) :
    Option CheckedEntry :=
  let ent : Entry := { level := lvl, time := time, message := msg }
  let ce : Option CheckedEntry :=
    coreCheck.map (fun cs => { getCheckedEntry ent with cores := cs })
  let willWrite := ce.isSome
  let ce2 :=
    match lvl with
    | .panic => CheckedEntry.Should ce ent .WriteThenPanic
    | .fatal => CheckedEntry.Should ce ent .WriteThenFatal
    | .dpanic => if development then CheckedEntry.Should ce ent .WriteThenPanic else ce
    | _ => ce
  if willWrite then ce2.map (fun c => { c with hasErrorOutput := hasErrOut }) else ce2

/-- _countersPerLevel (src/zapcore/sampler.go): slots per level row. -/
def countersPerLevel : Nat := 4096

/-- fnv32a over the bytes of a string (src/zapcore/sampler.go, lines
53-64), with uint32 arithmetic as Nat reduced modulo 2^32. -/
def fnv32a (s : List Nat) : Nat :=
  s.foldl (fun hash b => ((hash ^^^ b) * 16777619) % 2 ^ 32) 2166136261

/-- counters.get (src/zapcore/sampler.go, lines 46-50): the bucket
address of a (level, message) pair — the level row and the hashed,
modulo-bounded slot. -/
def countersGet (lvl : Level) (key : List Nat) : Nat × Nat :=
  (lvl.index, fnv32a key % countersPerLevel)

/-- One sampling counter (src/zapcore/sampler.go): the reset deadline
(atomic int64, zero-initialised) and the hit count (atomic uint64). -/
structure Counter where
  resetAt : Int
  counter : Nat
deriving DecidableEq, Repr

/-- int64 wraparound of an Int. -/
def wrap64 (x : Int) : Int := (x + 2 ^ 63) % 2 ^ 64 - 2 ^ 63

/-- counter.IncCheckReset (src/zapcore/sampler.go, lines 73-102), run
sequentially so the CAS always succeeds: strictly before the deadline the
count is incremented (uint64, modulo 2^64) and the new count returned;
at or past the deadline the count restarts at 1, the deadline becomes
t + tick (int64), and 1 is returned. -/
def Counter.IncCheckReset (c : Counter) (tn tick : Int) : Counter × Nat :=
  if c.resetAt > tn then
    let n := (c.counter + 1) % 2 ^ 64
    ({ c with counter := n }, n)
  else
    ({ resetAt := wrap64 (tn + tick), counter := 1 }, 1)

/-- The counters table, addressed by (level row, slot). -/
abbrev Counters := Nat × Nat → Counter

/-- A fresh counters table (src/zapcore/sampler.go, newCounters): every
deadline and count is zero. -/
def newCounters : Counters := fun _ => { resetAt := 0, counter := 0 }

/-- Point update of the counters table (the effect of the atomic stores
on one bucket). -/
def updateCounters (t : Counters) (b : Nat × Nat) (c : Counter) : Counters :=
  fun b2 => if b2 = b then c else t b2

/-- Go modulo on uint64 values: modulo by zero is a runtime panic,
modelled as none. -/
def goMod (a b : Nat) : Option Nat :=
  if b = 0 then none else some (a % b)

/-- The decision tail of sampler.Check (src/zapcore/sampler.go, line
161): drop (some false) when n > first and (n - first) mod thereafter is
non-zero, otherwise delegate to the inner core's Check (some true); with
thereafter = 0 the modulo is a Go runtime integer-divide-by-zero panic
(none). -/
def samplerDecide (first thereafter n : Nat) : Option Bool :=
  if first < n then
    match goMod (n - first) thereafter with
    | none => none
    | some r => if r ≠ 0 then some false else some true
  else some true

/-- The counter update and admission decision of sampler.Check
(src/zapcore/sampler.go, lines 146-167) on the counters table the sampler
references: a level the embedded enabler rejects leaves the table
untouched and does not delegate; otherwise the (level, message) bucket is
advanced by IncCheckReset and the returned count decides admission. -/
def samplerCheckTbl (enabled : Level → Bool) (tick : Int) (first thereafter : Nat)
    (lvl : Level) (msg : List Nat) (t : Int) (tbl : Counters) :
    Counters × Option Bool :=
  if enabled lvl then
    let b := countersGet lvl msg
    let cn := (tbl b).IncCheckReset t tick
    (updateCounters tbl b cn.1, samplerDecide first thereafter cn.2)
  else (tbl, some false)

/-- A sequence of sampler.Check calls for one fixed (level, message),
threading the counters table and recording each call's admission result. -/
def runChecks (enabled : Level → Bool) (tick : Int) (first thereafter : Nat)
    (lvl : Level) (msg : List Nat) (times : List Int) (tbl : Counters) :
    Counters × List (Option Bool) :=
  match times with
  | [] => (tbl, [])
  | t :: ts =>
    let step := samplerCheckTbl enabled tick first thereafter lvl msg t tbl
    let rest := runChecks enabled tick first thereafter lvl msg ts step.1
    (rest.1, step.2 :: rest.2)

/-- The admission rule the spec states for the nth occurrence inside one
tick window: admitted iff n ≤ F or (n - F) mod M = 0. -/
def specAdmit (first thereafter n : Nat) : Bool :=
  decide (n ≤ first ∨ (n - first) % thereafter = 0)

/-- The sampler core (src/zapcore/sampler.go): the wrapped inner core,
the shared counters table held by pointer (modelled by the pointer's
identity in a heap of tables), the tick, and the first / thereafter
uint64 budgets. -/
structure Sampler (γ : Type) where
  Core : γ
  counts : Nat
  tick : Int
  first : Nat
  thereafter : Nat

/-- Go's uint64 conversion of an int value. -/
def goUInt64 (x : Int) : Nat := (x % 2 ^ 64).toNat

/-- NewSampler (src/zapcore/sampler.go, lines 126-134): no argument is
validated; first and thereafter are converted to uint64 and the sampler
is built over a freshly allocated counters table, whose pointer identity
is the given fresh heap address. -/
def NewSampler {γ : Type} (core : γ) (freshId : Nat) (tick : Int)
    (first thereafter : Int) : Sampler γ :=
  { Core := core, counts := freshId, tick := tick
    first := goUInt64 first, thereafter := goUInt64 thereafter }

/-- sampler.With (src/zapcore/sampler.go, lines 136-144): the inner core
is replaced by its With; the counters pointer, tick, first and thereafter
are carried over unchanged. -/
def samplerWith {γ : Type} (coreWith : γ → List Field → γ) (s : Sampler γ)
    (fields : List Field) : Sampler γ :=
  { Core := coreWith s.Core fields
    counts := s.counts
    tick := s.tick
    first := s.first
    thereafter := s.thereafter }

/-- A heap of counters tables addressed by pointer identity. -/
abbrev CountersHeap := Nat → Counters

/-- Point update of the heap of counters tables. -/
def updateHeap (h : CountersHeap) (i : Nat) (t : Counters) : CountersHeap :=
  fun j => if j = i then t else h j

/-- sampler.Check acting through the sampler's shared counters pointer;
the embedded core's Enabled is supplied by the enabler view of the inner
core type. -/
def samplerCheckHeap {γ : Type} (enabled : γ → Level → Bool) (s : Sampler γ)
    (lvl : Level) (msg : List Nat) (t : Int) (h : CountersHeap) :
    CountersHeap × Option Bool :=
  let step := samplerCheckTbl (enabled s.Core) s.tick s.first s.thereafter
    lvl msg t (h s.counts)
  (updateHeap h s.counts step.1, step.2)

/-- The sink registry (src/unnamed/part_000, _sinkFactories): scheme
bytes mapped to the identity of the registered factory. -/
abbrev SinkRegistry := List (List Nat × Nat)

/-- The bytes of "file". -/
def schemeFile : List Nat := [102, 105, 108, 101]

/-- The registry as initialised (src/unnamed/part_000,
resetSinkRegistry): the built-in "file" factory, with identity 0. -/
def initialSinkRegistry : SinkRegistry := [(schemeFile, 0)]

/-- Map lookup on the registry. -/
def registryLookup (reg : SinkRegistry) (s : List Nat) : Option Nat :=
  match reg with
  | [] => none
  | (k, v) :: rest => if k = s then some v else registryLookup rest s

/-- strings.ToLower on one ASCII byte. -/
def toLowerByte (b : Nat) : Nat := if 65 ≤ b ∧ b ≤ 90 then b + 32 else b

/-- strings.ToLower as a byte map; it coincides with Go on the ASCII
schemes that RegisterSink documents as its domain. -/
def goToLower (s : List Nat) : List Nat := s.map toLowerByte

/-- A byte legal after the first position of a normalized scheme: a
lowercase letter, a digit, '.', '+' or '-' (src/unnamed/part_000,
normalizeScheme, lines 191-202). -/
def validSchemeByte (c : Nat) : Bool :=
  decide ((97 ≤ c ∧ c ≤ 122) ∨ (48 ≤ c ∧ c ≤ 57) ∨ c = 46 ∨ c = 43 ∨ c = 45)

/-- normalizeScheme (src/unnamed/part_000, lines 178-206): lowercase the
scheme; its first byte must be a lowercase letter and every later byte a
valid scheme byte. Indexing an empty string would be a Go runtime panic,
modelled as none. -/
def normalizeScheme (s0 : List Nat) : Option (Except String (List Nat)) :=
  match goToLower s0 with
  | [] => none
  | first :: rest =>
    if 97 > first ∨ 122 < first then some (.error "must start with a letter")
    else if rest.all validSchemeByte then some (.ok (first :: rest))
    else some (.error "may not contain an invalid byte")

/-- RegisterSink (src/unnamed/part_000, lines 87-111): an empty scheme is
an error; a scheme normalizeScheme rejects is an error; a normalized
scheme already present in the registry is an error; otherwise the factory
is inserted under the normalized scheme. The none case would model a
runtime panic; it never occurs because the empty scheme is rejected
before normalizeScheme indexes the string. -/
def RegisterSink (reg : SinkRegistry) (scheme : List Nat) (factory : Nat) :
    Option (Except String SinkRegistry) :=
  if scheme = [] then some (.error "sink factory for empty string")
  else
    match normalizeScheme scheme with
    | none => none
    | some (.error e) => some (.error e)
    | some (.ok normalized) =>
      if (registryLookup reg normalized).isSome then
        some (.error "sink factory already registered")
      else some (.ok ((normalized, factory) :: reg))

/-- The components of a parsed locator that newFileSink consults: the
net/url User field, fragment, raw query, and the Hostname() / Port()
views of the host, plus the path. -/
structure GoURL where
  hasUser : Bool
  fragment : String
  rawQuery : String
  port : String
  hostname : String
  path : String
deriving DecidableEq, Repr

/-- The two process standard streams. -/
inductive StdStream where
  | stdout
  | stderr
deriving DecidableEq, Repr

/-- A sink the file factory can return: a standard stream wrapped in
nopCloserSink, or a file opened with O_WRONLY, O_APPEND and O_CREATE
(src/unnamed/part_000). -/
inductive FileSinkVal where
  | nopCloser (s : StdStream)
  | openedFile (path : String) (wronly append create : Bool)
deriving DecidableEq, Repr

/-- Closing a sink: the returned error and whether the underlying stream
or file was actually closed. nopCloserSink.Close returns nil and closes
nothing (src/unnamed/part_000, lines 63-69); closing an opened file
closes it. -/
def sinkClose : FileSinkVal → Option String × Bool
  | .nopCloser _ => (none, false)
  | .openedFile _ _ _ _ => (none, true)

/-- newFileSink (src/unnamed/part_000, lines 138-175): reject user-info,
fragments, query parameters, ports, and any non-empty host other than
localhost; return the wrapped standard stream for the exact paths
"stdout" and "stderr"; otherwise open the path write-only, appending,
creating it if absent. -/
def newFileSink (u : GoURL) : Except String FileSinkVal :=
  if u.hasUser then .error "user and password not allowed with file URLs"
  else if u.fragment ≠ "" then .error "fragments not allowed with file URLs"
  else if u.rawQuery ≠ "" then .error "query parameters not allowed with file URLs"
  else if u.port ≠ "" then .error "ports not allowed with file URLs"
  else if u.hostname ≠ "" ∧ u.hostname ≠ "localhost" then
    .error "file URLs must leave host empty or use localhost"
  else if u.path = "stdout" then .ok (.nopCloser .stdout)
  else if u.path = "stderr" then .ok (.nopCloser .stderr)
  else .ok (.openedFile u.path true true true)

/-! Theorems. -/

/-- Folding multierr.Append over a member list concatenates the members'
error lists in order. -/
theorem foldl_multierrAppend (f : Core → List String) (mc : List Core)
    (acc : List String) :
    mc.foldl (fun err c => multierrAppend err (f c)) acc = acc ++ (mc.map f).flatten := by
  induction mc generalizing acc with
  | nil => simp [multierrAppend]
  | cons c cs ih =>
    rw [List.foldl_cons, ih]
    simp [multierrAppend, List.append_assoc]

/-- C6: NewTee with zero cores yields the no-op core — never enabled,
Check returns its accumulator argument unchanged, Write and Sync succeed
with no error; NewTee with exactly one core is that very core unchanged;
NewTee with two or more cores is the fan-out wrapper over the given
sequence. -/
theorem C6_newTee_cases :
    (NewTee [] = NewNopCore
      ∧ (∀ lvl, (NewTee []).Enabled lvl = false)
      ∧ (∀ ent ce, (NewTee []).Check ent ce = ce)
      ∧ (∀ ent fs, (NewTee []).Write ent fs = [])
      ∧ (NewTee []).Sync = [])
    ∧ (∀ c : Core, NewTee [c] = c)
    ∧ (∀ (c1 c2 : Core) (rest : List Core),
        NewTee (c1 :: c2 :: rest) = multiCore (c1 :: c2 :: rest)) :=
  ⟨⟨rfl, fun _ => rfl, fun _ _ => rfl, fun _ _ => rfl, rfl⟩,
    fun _ => rfl, fun _ _ _ => rfl⟩

/-- C7: the fan-out core's Write visits every member in order and returns
the concatenation of all member error lists — so no member is skipped
after an earlier error, and the result is nil iff every member
succeeded; Sync behaves the same way; Enabled is true iff at least one
member is enabled. -/
theorem C7_multiCore_aggregation (mc : List Core) (ent : Entry)
    (fields : List Field) (lvl : Level) :
    (multiCore mc).Write ent fields = (mc.map (fun c => c.Write ent fields)).flatten
    ∧ ((multiCore mc).Write ent fields = [] ↔ ∀ c ∈ mc, c.Write ent fields = [])
    ∧ (multiCore mc).Sync = (mc.map (fun c => c.Sync)).flatten
    ∧ ((multiCore mc).Sync = [] ↔ ∀ c ∈ mc, c.Sync = [])
    ∧ ((multiCore mc).Enabled lvl = true ↔ ∃ c ∈ mc, c.Enabled lvl = true) := by
  have hw : (multiCore mc).Write ent fields
      = (mc.map (fun c => c.Write ent fields)).flatten := by
    simpa using foldl_multierrAppend (fun c => c.Write ent fields) mc []
  have hs : (multiCore mc).Sync = (mc.map (fun c => c.Sync)).flatten := by
    simpa using foldl_multierrAppend (fun c => c.Sync) mc []
  refine ⟨hw, ?_, hs, ?_, ?_⟩
  · rw [hw]
    simp
  · rw [hs]
    simp
  · simp [multiCore, List.any_eq_true]

/-- C5: ioCore.Write encodes the entry and fields first and, when
encoding fails, writes nothing and returns the encoding error; otherwise
it writes the encoded bytes to the destination and frees the buffer
regardless of the write's outcome; a destination write error is returned
without syncing; on a successful write it syncs, ignoring the sync
error, exactly when the entry's level is strictly above Error, and
returns no error. -/
theorem C5_ioCore_write (c : IoCore) (ent : Entry) (fields : List Field) :
    (∀ e, c.encode ent fields = .error e →
      c.Write ent fields
        = { wroteBytes := none, bufFreed := false, synced := false, result := some e })
    ∧ (∀ buf, c.encode ent fields = .ok buf →
        (c.Write ent fields).wroteBytes = some buf
        ∧ (c.Write ent fields).bufFreed = true
        ∧ (∀ e, c.outWrite buf = some e →
            (c.Write ent fields).result = some e ∧ (c.Write ent fields).synced = false)
        ∧ (c.outWrite buf = none →
            (c.Write ent fields).result = none
            ∧ ((c.Write ent fields).synced = true
                ↔ ent.level.toInt > Level.error.toInt))) := by
  constructor
  · intro e he
    simp [IoCore.Write, he]
  · intro buf hbuf
    refine ⟨?_, ?_, ?_, ?_⟩
    · simp only [IoCore.Write, hbuf]
      cases hw : c.outWrite buf <;> simp [hw]
      split <;> rfl
    · simp only [IoCore.Write, hbuf]
      cases hw : c.outWrite buf <;> simp [hw]
      split <;> rfl
    · intro e hw
      simp [IoCore.Write, hbuf, hw]
    · intro hw
      simp only [IoCore.Write, hbuf, hw]
      constructor
      · split <;> rfl
      · constructor
        · intro hsy
          by_contra hlt
          simp only [hlt, if_false] at hsy
          exact Bool.false_ne_true hsy
        · intro hgt
          simp [hgt]

/-- C5 witness: a concrete single-destination core whose encoder
succeeds and whose destination write succeeds, at Fatal level: the sync
happens and no error is returned. -/
theorem C5_ioCore_write_witness :
    ((⟨fun _ => true, fun _ _ => .ok [7], fun _ => none, some "boom"⟩ : IoCore).Write
        ⟨.fatal, 0, []⟩ []).result = none
    ∧ ((⟨fun _ => true, fun _ _ => .ok [7], fun _ => none, some "boom"⟩ : IoCore).Write
        ⟨.fatal, 0, []⟩ []).synced = true := by
  have h := (C5_ioCore_write
    (⟨fun _ => true, fun _ _ => .ok [7], fun _ => none, some "boom"⟩ : IoCore)
    ⟨.fatal, 0, []⟩ []).2 [7] rfl
  exact ⟨(h.2.2.2 rfl).1, ((h.2.2.2 rfl).2).mpr (by decide)⟩

/-- C3: a second Write on a CheckedEntry whose dirty flag is already set
invokes no collected core's Write, performs no pool return and no
terminal action, reports a reuse diagnostic exactly when an error output
is configured, and returns normally without propagating any error. -/
theorem C3_dirty_write_reported_noop (c : CheckedEntry) (h : c.dirty = true) :
    (CheckedEntry.Write (some c)).coreWritesAttempted = 0
    ∧ (CheckedEntry.Write (some c)).pooled = false
    ∧ (CheckedEntry.Write (some c)).terminal = .noop
    ∧ ((CheckedEntry.Write (some c)).reuseReported = true ↔ c.hasErrorOutput = true)
    ∧ (CheckedEntry.Write (some c)).writeErrorReported = false := by
  simp [CheckedEntry.Write, h]

/-- C3 witness: a concrete dirty CheckedEntry with an error output and
one collected core: its Write attempts nothing, pools nothing, takes no
terminal action, and reports the reuse. -/
theorem C3_dirty_write_reported_noop_witness :
    (CheckedEntry.Write (some ⟨⟨.info, 0, [104, 105]⟩, true, true, .WriteThenNoop, [["x"]]⟩)).coreWritesAttempted = 0
    ∧ (CheckedEntry.Write (some ⟨⟨.info, 0, [104, 105]⟩, true, true, .WriteThenNoop, [["x"]]⟩)).pooled = false
    ∧ (CheckedEntry.Write (some ⟨⟨.info, 0, [104, 105]⟩, true, true, .WriteThenNoop, [["x"]]⟩)).reuseReported = true := by
  have h := C3_dirty_write_reported_noop
    ⟨⟨.info, 0, [104, 105]⟩, true, true, .WriteThenNoop, [["x"]]⟩ rfl
  exact ⟨h.1, h.2.1, h.2.2.2.1.mpr rfl⟩

/-- C4: a check at Panic level, or at DPanic level in development mode,
produces a non-nil CheckedEntry carrying the panic action whose Write
invokes every collected core's Write and then panics with the message;
a check at Fatal level likewise produces a non-nil entry whose Write
exits the process after every collected core's Write — whatever the
core's own check returned (even nil, when no core was enabled) and
whatever errors the collected cores' writes produce. -/
theorem C4_terminal_levels (development : Bool) (hasErrOut : Bool) (time : Int)
    (msg : List Nat) (coreCheck : Option (List CoreOutcome)) :
    ((∃ c, loggerCheck development hasErrOut .panic time msg coreCheck = some c
        ∧ c.should = .WriteThenPanic)
      ∧ (CheckedEntry.Write (loggerCheck development hasErrOut .panic time msg coreCheck)).terminal
          = .panicked msg
      ∧ (CheckedEntry.Write (loggerCheck development hasErrOut .panic time msg coreCheck)).coreWritesAttempted
          = (coreCheck.getD []).length)
    ∧ ((∃ c, loggerCheck development hasErrOut .fatal time msg coreCheck = some c
        ∧ c.should = .WriteThenFatal)
      ∧ (CheckedEntry.Write (loggerCheck development hasErrOut .fatal time msg coreCheck)).terminal
          = .exited
      ∧ (CheckedEntry.Write (loggerCheck development hasErrOut .fatal time msg coreCheck)).coreWritesAttempted
          = (coreCheck.getD []).length)
    ∧ (development = true →
        (∃ c, loggerCheck development hasErrOut .dpanic time msg coreCheck = some c
          ∧ c.should = .WriteThenPanic)
        ∧ (CheckedEntry.Write (loggerCheck development hasErrOut .dpanic time msg coreCheck)).terminal
            = .panicked msg
        ∧ (CheckedEntry.Write (loggerCheck development hasErrOut .dpanic time msg coreCheck)).coreWritesAttempted
            = (coreCheck.getD []).length) := by
  refine ⟨?_, ?_, ?_⟩
  · cases coreCheck <;>
      simp [loggerCheck, CheckedEntry.Write, CheckedEntry.Should, getCheckedEntry]
  · cases coreCheck <;>
      simp [loggerCheck, CheckedEntry.Write, CheckedEntry.Should, getCheckedEntry]
  · intro hdev
    subst hdev
    cases coreCheck <;>
      simp [loggerCheck, CheckedEntry.Write, CheckedEntry.Should, getCheckedEntry]

/-- C4 witness: in development mode, with an error output, no enabled
core (the core check returned nil), a DPanic check still yields an entry
whose Write panics with the message after zero core writes. -/
theorem C4_terminal_levels_witness :
    (CheckedEntry.Write (loggerCheck true true .dpanic 0 [98] none)).terminal
      = .panicked [98]
    ∧ (CheckedEntry.Write (loggerCheck true true .dpanic 0 [98] none)).coreWritesAttempted = 0
    ∧ (CheckedEntry.Write (loggerCheck true true .fatal 0 [98] (some [["e"], []]))).terminal
      = .exited
    ∧ (CheckedEntry.Write (loggerCheck true true .fatal 0 [98] (some [["e"], []]))).coreWritesAttempted = 2 := by
  have h1 := (C4_terminal_levels true true 0 [98] none).2.2 rfl
  have h2 := (C4_terminal_levels true true 0 [98] (some [["e"], []])).2.1
  exact ⟨h1.2.1, h1.2.2, h2.2.1, h2.2.2⟩

/-- wrap64 is the identity on the int64 range. -/
theorem wrap64_eq_self (x : Int) (hlo : -(2 ^ 63) ≤ x) (hhi : x < 2 ^ 63) :
    wrap64 x = x := by
  unfold wrap64
  have e63 : (2 : Int) ^ 63 = 9223372036854775808 := by norm_num
  have e64 : (2 : Int) ^ 64 = 18446744073709551616 := by norm_num
  rw [e63, e64] at *
  rw [Int.emod_eq_of_lt (by omega) (by omega)]
  omega

/-- IncCheckReset strictly before the deadline: increment and return the
new count (no uint64 wrap below 2^64). -/
theorem IncCheckReset_before (c : Counter) (tn tick : Int) (h : tn < c.resetAt)
    (hm : c.counter + 1 < 2 ^ 64) :
    c.IncCheckReset tn tick = (⟨c.resetAt, c.counter + 1⟩, c.counter + 1) := by
  have hmod : (c.counter + 1) % 2 ^ 64 = c.counter + 1 := Nat.mod_eq_of_lt hm
  unfold Counter.IncCheckReset
  rw [if_pos h]
  simp only [hmod]

/-- IncCheckReset at or past the deadline: the count restarts at 1 and
the deadline becomes tn + tick. -/
theorem IncCheckReset_reset (c : Counter) (tn tick : Int) (h : c.resetAt ≤ tn) :
    c.IncCheckReset tn tick = (⟨wrap64 (tn + tick), 1⟩, 1) := by
  unfold Counter.IncCheckReset
  rw [if_neg (by omega)]

/-- With a positive thereafter the decision tail of sampler.Check is
exactly the spec's admission rule for the nth occurrence. -/
theorem samplerDecide_eq (F M n : Nat) (hM : 1 ≤ M) :
    samplerDecide F M n = some (specAdmit F M n) := by
  have hM0 : M ≠ 0 := by omega
  unfold samplerDecide specAdmit goMod
  rw [if_neg hM0]
  by_cases hF : F < n
  · rw [if_pos hF]
    by_cases hz : (n - F) % M = 0
    · simp [hz]
    · have hnle : ¬n ≤ F := by omega
      simp [hz, hnle]
  · have hle : n ≤ F := by omega
    rw [if_neg hF]
    simp [hle]

/-- Mapping over range (k + 1) peels the first element. -/
theorem range_map_shift {α : Type} (f : Nat → α) (k : Nat) :
    (List.range (k + 1)).map f = f 0 :: (List.range k).map (fun i => f (i + 1)) := by
  rw [List.range_succ_eq_map, List.map_cons, List.map_map]
  exact congrArg (f 0 :: ·) (List.map_congr_left (fun a _ => rfl))

/-- A run of sampler.Check calls all strictly inside the window of a
bucket holding count m: the kth call is occurrence m + k, the decisions
follow the admission rule, and the bucket ends at count m + (number of
calls) with its deadline untouched. -/
theorem runChecks_in_window (enabled : Level → Bool) (tick : Int) (F M : Nat)
    (lvl : Level) (msg : List Nat) (times : List Int) (tbl : Counters)
    (R : Int) (m : Nat)
    (hen : enabled lvl = true) (hM : 1 ≤ M)
    (hb : tbl (countersGet lvl msg) = ⟨R, m⟩)
    (htimes : ∀ t ∈ times, t < R)
    (hcount : m + times.length < 2 ^ 64) :
    (runChecks enabled tick F M lvl msg times tbl).2
      = (List.range times.length).map (fun i => some (specAdmit F M (m + i + 1)))
    ∧ (runChecks enabled tick F M lvl msg times tbl).1 (countersGet lvl msg)
      = ⟨R, m + times.length⟩ := by
  induction times generalizing tbl m with
  | nil =>
    refine ⟨by simp [runChecks], ?_⟩
    simpa [runChecks] using hb
  | cons t ts ih =>
    have ht : t < R := htimes t (List.mem_cons_self t ts)
    have hts : ∀ x ∈ ts, x < R := fun x hx => htimes x (List.mem_cons_of_mem t hx)
    have hlen : m + (ts.length + 1) < 2 ^ 64 := by
      simpa [List.length_cons] using hcount
    have hm1 : m + 1 < 2 ^ 64 := by omega
    have hinc := IncCheckReset_before (⟨R, m⟩ : Counter) t tick ht hm1
    have hstep : samplerCheckTbl enabled tick F M lvl msg t tbl
        = (updateCounters tbl (countersGet lvl msg) ⟨R, m + 1⟩,
           some (specAdmit F M (m + 1))) := by
      simp only [samplerCheckTbl, hen, if_true, hb, hinc]
      rw [samplerDecide_eq F M (m + 1) hM]
    have hb2 : (updateCounters tbl (countersGet lvl msg) ⟨R, m + 1⟩) (countersGet lvl msg)
        = ⟨R, m + 1⟩ := by simp [updateCounters]
    have hih := ih (updateCounters tbl (countersGet lvl msg) ⟨R, m + 1⟩) (m + 1) hb2 hts
      (by omega)
    constructor
    · simp only [runChecks, hstep]
      rw [hih.1, List.length_cons, range_map_shift]
      congr 1
      apply List.map_congr_left
      intro a _
      have harith : m + 1 + a + 1 = m + (a + 1) + 1 := by omega
      rw [harith]
    · simp only [runChecks, hstep]
      rw [hih.2, List.length_cons]
      have harith : m + 1 + ts.length = m + (ts.length + 1) := by omega
      rw [harith]

/-- C1 (amended): for T > 0, F ≥ 0, M ≥ 1 and an admitted (level,
message), a Check at or past the bucket's deadline restarts the count at
1 and moves the deadline to its timestamp plus T, and over that call
followed by any calls with timestamps before the new deadline, the nth
occurrence is delegated to the inner core iff n ≤ F or (n − F) mod M = 0
— so the reset occurrence, being occurrence 1, is admitted iff F ≥ 1 or
M = 1, not unconditionally. -/
theorem C1_sampler_window_reset (enabled : Level → Bool) (T : Int) (F M : Nat)
    (lvl : Level) (msg : List Nat) (t0 : Int) (times : List Int) (tbl : Counters)
    (hen : enabled lvl = true) (_hT : 0 < T) (hM : 1 ≤ M)
    (hreset : (tbl (countersGet lvl msg)).resetAt ≤ t0)
    (hlo : -(2 ^ 63) ≤ t0 + T) (hhi : t0 + T < 2 ^ 63)
    (htimes : ∀ t ∈ times, t < t0 + T)
    (hcount : times.length + 1 < 2 ^ 64) :
    (runChecks enabled T F M lvl msg (t0 :: times) tbl).2
      = (List.range (times.length + 1)).map (fun n => some (specAdmit F M (n + 1)))
    ∧ (samplerCheckTbl enabled T F M lvl msg t0 tbl).1 (countersGet lvl msg)
      = ⟨t0 + T, 1⟩
    ∧ (runChecks enabled T F M lvl msg (t0 :: times) tbl).1 (countersGet lvl msg)
      = ⟨t0 + T, times.length + 1⟩ := by
  have hw : wrap64 (t0 + T) = t0 + T := wrap64_eq_self _ hlo hhi
  have hinc := IncCheckReset_reset (tbl (countersGet lvl msg)) t0 T hreset
  have hstep : samplerCheckTbl enabled T F M lvl msg t0 tbl
      = (updateCounters tbl (countersGet lvl msg) ⟨t0 + T, 1⟩,
         some (specAdmit F M 1)) := by
    simp only [samplerCheckTbl, hen, if_true, hinc, hw]
    rw [samplerDecide_eq F M 1 hM]
  have hb2 : (updateCounters tbl (countersGet lvl msg) ⟨t0 + T, 1⟩) (countersGet lvl msg)
      = ⟨t0 + T, 1⟩ := by simp [updateCounters]
  have hwin := runChecks_in_window enabled T F M lvl msg times
    (updateCounters tbl (countersGet lvl msg) ⟨t0 + T, 1⟩) (t0 + T) 1 hen hM hb2 htimes
    (by omega)
  refine ⟨?_, ?_, ?_⟩
  · simp only [runChecks, hstep]
    rw [hwin.1, range_map_shift]
    congr 1
    apply List.map_congr_left
    intro a _
    have harith : 1 + a + 1 = a + 1 + 1 := by omega
    rw [harith]
  · rw [hstep]
    exact hb2
  · simp only [runChecks, hstep]
    rw [hwin.2]
    have harith : 1 + times.length = times.length + 1 := by omega
    rw [harith]

/-- C1 witness: sampler budgets first = 1, thereafter = 2, tick = 100,
starting from a fresh table at timestamps 0, 1, 2, 3: occurrences 1 and
3 are delegated, occurrences 2 and 4 are dropped, and the bucket ends at
deadline 100 with count 4. -/
theorem C1_sampler_window_reset_witness :
    (runChecks (fun _ => true) 100 1 2 .info [97] [0, 1, 2, 3] newCounters).2
      = [some true, some false, some true, some false]
    ∧ (runChecks (fun _ => true) 100 1 2 .info [97] [0, 1, 2, 3] newCounters).1
        (countersGet .info [97]) = ⟨100, 4⟩ := by
  have h := C1_sampler_window_reset (fun _ => true) 100 1 2 .info [97] 0 [1, 2, 3]
    newCounters rfl (by decide) (by decide) (by decide) (by decide) (by decide)
    (by decide) (by decide)
  exact ⟨h.1.trans (by decide), h.2.2.trans (by decide)⟩

/-- C1 counterexample: with first = 0 and thereafter = 2, an
always-enabled inner core and a fresh table, the very first Check
(timestamp 0, at the bucket's reset deadline 0) does restart the count
at 1 and move the deadline to 0 + tick, yet it is not delegated to the
inner core — refuting the claim's "that occurrence is unconditionally
admitted". -/
theorem C1_reset_occurrence_dropped :
    (newCounters (countersGet .info [97])).resetAt ≤ 0
    ∧ (samplerCheckTbl (fun _ => true) 100 0 2 .info [97] 0 newCounters).2 = some false
    ∧ (samplerCheckTbl (fun _ => true) 100 0 2 .info [97] 0 newCounters).1
        (countersGet .info [97]) = ⟨100, 1⟩ := by
  refine ⟨by decide, by decide, by decide⟩

/-- C2: NewSampler performs no validation, so a thereafter of 0 is
accepted rather than rejected; the first Check whose count exceeds first
then evaluates (n − first) mod 0 — a Go runtime integer-divide-by-zero
panic, modelled none: the occurrence is neither dropped nor delegated,
contradicting "rejects the configuration or drops every occurrence after
the first F, never performing a division by zero". -/
theorem C2_thereafter_zero_mod_zero :
    (NewSampler () 0 100 0 0).thereafter = 0
    ∧ (samplerCheckTbl (fun _ => true) (NewSampler () 0 100 0 0).tick
        (NewSampler () 0 100 0 0).first (NewSampler () 0 100 0 0).thereafter
        .info [97] 0 newCounters).2 = none := by
  exact ⟨by decide, by decide⟩

/-- One in-window sampler.Check through the shared heap: the sampler's
own bucket advances by one, whatever the admission decision. -/
theorem samplerCheckHeap_fst {γ : Type} (enabled : γ → Level → Bool) (s : Sampler γ)
    (lvl : Level) (msg : List Nat) (t R : Int) (m : Nat) (h : CountersHeap)
    (hen : enabled s.Core lvl = true)
    (hb : h s.counts (countersGet lvl msg) = ⟨R, m⟩)
    (ht : t < R) (hm : m + 1 < 2 ^ 64) :
    (samplerCheckHeap enabled s lvl msg t h).1
      = updateHeap h s.counts
          (updateCounters (h s.counts) (countersGet lvl msg) ⟨R, m + 1⟩) := by
  have hinc := IncCheckReset_before (⟨R, m⟩ : Counter) t s.tick ht (by simpa using hm)
  simp only [samplerCheckHeap, samplerCheckTbl, hen, if_true, hb, hinc]

/-- C10: sampler.With keeps the very same counters pointer, tick, first
and thereafter as its receiver, replacing only the inner core by the
inner core's With; consequently a check through the field-bound child
advances the very counter a following check through the parent reads —
parent and child draw on one shared sampling budget for the same
(level, message), not on independent counters. -/
theorem C10_sampler_with_shared_budget {γ : Type} (coreWith : γ → List Field → γ)
    (s : Sampler γ) (fields : List Field) :
    (samplerWith coreWith s fields).counts = s.counts
    ∧ (samplerWith coreWith s fields).tick = s.tick
    ∧ (samplerWith coreWith s fields).first = s.first
    ∧ (samplerWith coreWith s fields).thereafter = s.thereafter
    ∧ (samplerWith coreWith s fields).Core = coreWith s.Core fields
    ∧ (∀ (enabled : γ → Level → Bool) (lvl : Level) (msg : List Nat)
        (t1 t2 R : Int) (m : Nat) (h : CountersHeap),
        enabled (coreWith s.Core fields) lvl = true →
        enabled s.Core lvl = true →
        h s.counts (countersGet lvl msg) = ⟨R, m⟩ →
        t1 < R → t2 < R → m + 2 < 2 ^ 64 →
        ((samplerCheckHeap enabled s lvl msg t2
            (samplerCheckHeap enabled (samplerWith coreWith s fields) lvl msg t1 h).1).1
          s.counts) (countersGet lvl msg)
          = ⟨R, m + 2⟩) := by
  refine ⟨rfl, rfl, rfl, rfl, rfl, ?_⟩
  intro enabled lvl msg t1 t2 R m h hen1 hen2 hb ht1 ht2 hm
  have hchild := samplerCheckHeap_fst enabled (samplerWith coreWith s fields)
    lvl msg t1 R m h hen1 hb ht1 (by omega)
  simp only [samplerWith] at hchild
  simp only [samplerWith]
  rw [hchild]
  have hb2 : (updateHeap h s.counts
      (updateCounters (h s.counts) (countersGet lvl msg) ⟨R, m + 1⟩)) s.counts
      (countersGet lvl msg) = ⟨R, m + 1⟩ := by
    simp [updateHeap, updateCounters]
  have hparent := samplerCheckHeap_fst enabled s lvl msg t2 R (m + 1) _ hen2 hb2 ht2
    (by omega)
  rw [hparent]
  have harith : m + 1 + 1 = m + 2 := by omega
  simp [updateHeap, updateCounters, harith]

/-- C10 witness: a concrete sampler over a unit inner core, bucket at
deadline 50 with count 0: a check through the field-bound child at time
1 and then through the parent at time 2 leave the shared bucket at count
2. -/
theorem C10_sampler_with_shared_budget_witness :
    ((samplerCheckHeap (fun _ _ => true) (⟨(), 7, 100, 1, 2⟩ : Sampler Unit)
        .info [97] 2
        (samplerCheckHeap (fun _ _ => true)
          (samplerWith (fun _ _ => ()) (⟨(), 7, 100, 1, 2⟩ : Sampler Unit) [])
          .info [97] 1 (fun _ _ => ⟨50, 0⟩)).1).1 7) (countersGet .info [97])
      = ⟨50, 2⟩ := by
  have h := (C10_sampler_with_shared_budget (fun _ _ => ())
    (⟨(), 7, 100, 1, 2⟩ : Sampler Unit) []).2.2.2.2.2
    (fun _ _ => true) .info [97] 1 2 50 0 (fun _ _ => ⟨50, 0⟩)
    rfl rfl rfl (by decide) (by decide) (by decide)
  exact h

/-- normalizeScheme never hits the empty-string indexing panic on a
non-empty scheme. -/
theorem normalizeScheme_cons_ne_none (b : Nat) (rest : List Nat) :
    normalizeScheme (b :: rest) ≠ none := by
  simp only [normalizeScheme, goToLower, List.map_cons]
  split
  · simp
  · split <;> simp

/-- C8: RegisterSink fails with an error on the empty scheme; it fails
when the first byte of the lowercased scheme is not a letter, and when
any later byte is not a letter, digit, '.', '+' or '-'; it fails when a
factory is already registered for the normalized scheme; otherwise it
inserts the factory under the normalized scheme and returns no error;
and in every case it returns an error value rather than panicking. -/
theorem C8_registerSink (reg : SinkRegistry) (factory : Nat) :
    (∃ e, RegisterSink reg [] factory = some (.error e))
    ∧ (∀ scheme, RegisterSink reg scheme factory ≠ none)
    ∧ (∀ b rest, ¬(97 ≤ toLowerByte b ∧ toLowerByte b ≤ 122) →
        ∃ e, RegisterSink reg (b :: rest) factory = some (.error e))
    ∧ (∀ b rest c, c ∈ rest → validSchemeByte (toLowerByte c) = false →
        ∃ e, RegisterSink reg (b :: rest) factory = some (.error e))
    ∧ (∀ scheme n, normalizeScheme scheme = some (.ok n) →
        (registryLookup reg n).isSome →
        ∃ e, RegisterSink reg scheme factory = some (.error e))
    ∧ (∀ scheme n, normalizeScheme scheme = some (.ok n) →
        registryLookup reg n = none →
        RegisterSink reg scheme factory = some (.ok ((n, factory) :: reg))
        ∧ registryLookup ((n, factory) :: reg) n = some factory) := by
  refine ⟨⟨"sink factory for empty string", by simp [RegisterSink]⟩, ?_, ?_, ?_, ?_, ?_⟩
  · intro scheme
    cases scheme with
    | nil => simp [RegisterSink]
    | cons b rest =>
      have hne := normalizeScheme_cons_ne_none b rest
      cases hx : normalizeScheme (b :: rest) with
      | none => exact absurd hx hne
      | some v =>
        cases v with
        | error e => simp [RegisterSink, hx]
        | ok n =>
          simp only [RegisterSink, hx]
          rw [if_neg (List.cons_ne_nil b rest)]
          split <;> simp
  · intro b rest hbad
    have hcond : 97 > toLowerByte b ∨ 122 < toLowerByte b := by omega
    have hns : normalizeScheme (b :: rest) = some (.error "must start with a letter") := by
      simp only [normalizeScheme, goToLower, List.map_cons]
      rw [if_pos hcond]
    refine ⟨"must start with a letter", ?_⟩
    simp only [RegisterSink, hns]
    rw [if_neg (List.cons_ne_nil b rest)]
  · intro b rest c hc hbadc
    by_cases hfirst : 97 > toLowerByte b ∨ 122 < toLowerByte b
    · have hns : normalizeScheme (b :: rest) = some (.error "must start with a letter") := by
        simp only [normalizeScheme, goToLower, List.map_cons]
        rw [if_pos hfirst]
      refine ⟨"must start with a letter", ?_⟩
      simp only [RegisterSink, hns]
      rw [if_neg (List.cons_ne_nil b rest)]
    · have hall : (rest.map toLowerByte).all validSchemeByte = false := by
        by_contra hcon
        have htrue : (rest.map toLowerByte).all validSchemeByte = true := by
          cases hv : (rest.map toLowerByte).all validSchemeByte
          · exact absurd hv hcon
          · rfl
        have hmem := List.all_eq_true.mp htrue (toLowerByte c)
          (List.mem_map_of_mem toLowerByte hc)
        rw [hbadc] at hmem
        exact Bool.false_ne_true hmem
      have hns : normalizeScheme (b :: rest)
          = some (.error "may not contain an invalid byte") := by
        simp only [normalizeScheme, goToLower, List.map_cons]
        rw [if_neg hfirst, hall]
        simp
      refine ⟨"may not contain an invalid byte", ?_⟩
      simp only [RegisterSink, hns]
      rw [if_neg (List.cons_ne_nil b rest)]
  · intro scheme n hn hdup
    have hnonempty : scheme ≠ [] := by
      intro he
      subst he
      simp [normalizeScheme, goToLower] at hn
    refine ⟨"sink factory already registered", ?_⟩
    simp only [RegisterSink, hn]
    rw [if_neg hnonempty, if_pos hdup]
  · intro scheme n hn hnone
    have hnonempty : scheme ≠ [] := by
      intro he
      subst he
      simp [normalizeScheme, goToLower] at hn
    constructor
    · simp only [RegisterSink, hn]
      rw [if_neg hnonempty]
      simp [hnone]
    · simp [registryLookup]

/-- C8 witness: "3ab" (bad first byte) and "a_b" (underscore) are
rejected, re-registering "file" is rejected, and "a.b+c-9" registers
successfully under itself. -/
theorem C8_registerSink_witness :
    (∃ e, RegisterSink initialSinkRegistry [51, 97, 98] 7 = some (.error e))
    ∧ (∃ e, RegisterSink initialSinkRegistry [97, 95, 98] 7 = some (.error e))
    ∧ (∃ e, RegisterSink initialSinkRegistry schemeFile 7 = some (.error e))
    ∧ RegisterSink initialSinkRegistry [97, 46, 98, 43, 99, 45, 57] 7
        = some (.ok (([97, 46, 98, 43, 99, 45, 57], 7) :: initialSinkRegistry)) := by
  have h := C8_registerSink initialSinkRegistry 7
  refine ⟨h.2.2.1 51 [97, 98] (by decide), ?_, ?_, ?_⟩
  · exact h.2.2.2.1 97 [95, 98] 95 (by simp) (by decide)
  · exact h.2.2.2.2.1 schemeFile schemeFile rfl (by decide)
  · exact (h.2.2.2.2.2 [97, 46, 98, 43, 99, 45, 57] [97, 46, 98, 43, 99, 45, 57]
      rfl (by decide)).1

/-- Any combination of forbidden locator components makes newFileSink
fail with an error. -/
theorem newFileSink_error_of (u : GoURL)
    (h : u.hasUser = true ∨ u.fragment ≠ "" ∨ u.rawQuery ≠ "" ∨ u.port ≠ ""
      ∨ (u.hostname ≠ "" ∧ u.hostname ≠ "localhost")) :
    ∃ e, newFileSink u = .error e := by
  unfold newFileSink
  split
  · exact ⟨_, rfl⟩
  split
  · exact ⟨_, rfl⟩
  split
  · exact ⟨_, rfl⟩
  split
  · exact ⟨_, rfl⟩
  split
  · exact ⟨_, rfl⟩
  rename_i h1 h2 h3 h4 h5
  exfalso
  rcases h with h | h | h | h | h
  · exact h1 h
  · exact h2 h
  · exact h3 h
  · exact h4 h
  · exact h5 h

/-- C9: the file factory rejects locators carrying user-info, a
fragment, a query string, a port, or a non-empty host other than
localhost; on a clean locator the exact paths "stdout" and "stderr"
yield the corresponding standard stream wrapped so that closing it
returns nil without closing the underlying stream, and any other path is
opened write-only, appending, created if absent. -/
theorem C9_newFileSink (u : GoURL) :
    (u.hasUser = true → ∃ e, newFileSink u = .error e)
    ∧ (u.fragment ≠ "" → ∃ e, newFileSink u = .error e)
    ∧ (u.rawQuery ≠ "" → ∃ e, newFileSink u = .error e)
    ∧ (u.port ≠ "" → ∃ e, newFileSink u = .error e)
    ∧ (u.hostname ≠ "" → u.hostname ≠ "localhost" → ∃ e, newFileSink u = .error e)
    ∧ (∀ s, sinkClose (.nopCloser s) = (none, false))
    ∧ (u.hasUser = false → u.fragment = "" → u.rawQuery = "" → u.port = "" →
        (u.hostname = "" ∨ u.hostname = "localhost") →
        (u.path = "stdout" → newFileSink u = .ok (.nopCloser .stdout))
        ∧ (u.path = "stderr" → newFileSink u = .ok (.nopCloser .stderr))
        ∧ (u.path ≠ "stdout" → u.path ≠ "stderr" →
            newFileSink u = .ok (.openedFile u.path true true true))) := by
  refine ⟨?_, ?_, ?_, ?_, ?_, fun _ => rfl, ?_⟩
  · intro h
    exact newFileSink_error_of u (Or.inl h)
  · intro h
    exact newFileSink_error_of u (Or.inr (Or.inl h))
  · intro h
    exact newFileSink_error_of u (Or.inr (Or.inr (Or.inl h)))
  · intro h
    exact newFileSink_error_of u (Or.inr (Or.inr (Or.inr (Or.inl h))))
  · intro h1 h2
    exact newFileSink_error_of u (Or.inr (Or.inr (Or.inr (Or.inr ⟨h1, h2⟩))))
  · intro hu hf hq hp hh
    have hclean : newFileSink u
        = (if u.path = "stdout" then Except.ok (FileSinkVal.nopCloser .stdout)
           else if u.path = "stderr" then Except.ok (FileSinkVal.nopCloser .stderr)
           else Except.ok (FileSinkVal.openedFile u.path true true true)) := by
      unfold newFileSink
      rw [if_neg (by simp [hu]), if_neg (by simp [hf]), if_neg (by simp [hq]),
        if_neg (by simp [hp]), if_neg (by rcases hh with h | h <;> simp [h])]
    refine ⟨?_, ?_, ?_⟩
    · intro hs
      rw [hclean, if_pos hs]
    · intro hs
      rw [hclean, if_neg (by simp [hs]), if_pos hs]
    · intro hs1 hs2
      rw [hclean, if_neg hs1, if_neg hs2]

/-- C9 witness: path "stdout" on a clean locator yields the wrapped
standard output whose close is a nil no-op; a port is rejected; an
ordinary path is opened write-only, appending, creating. -/
theorem C9_newFileSink_witness :
    newFileSink ⟨false, "", "", "", "", "stdout"⟩ = .ok (.nopCloser .stdout)
    ∧ sinkClose (.nopCloser .stdout) = (none, false)
    ∧ (∃ e, newFileSink ⟨false, "", "", "8080", "localhost", "stdout"⟩ = .error e)
    ∧ newFileSink ⟨false, "", "", "", "localhost", "app.log"⟩
        = .ok (.openedFile "app.log" true true true) := by
  have h1 := (C9_newFileSink ⟨false, "", "", "", "", "stdout"⟩).2.2.2.2.2.2
    rfl rfl rfl rfl (Or.inl rfl)
  have h2 := (C9_newFileSink ⟨false, "", "", "8080", "localhost", "stdout"⟩).2.2.2.1
    (by decide)
  have h3 := (C9_newFileSink ⟨false, "", "", "", "localhost", "app.log"⟩).2.2.2.2.2.2
    rfl rfl rfl rfl (Or.inr rfl)
  exact ⟨h1.1 rfl, rfl, h2, h3.2.2 (by decide) (by decide)⟩

end Zap
